import Mathlib

/-!
Verification of the SAIREN-OS Volve WITS Level 0 server
(`scripts/volve_wits_server.py`).

The embedding models Python floats as `PyFloat`: an exact rational for
finite values, plus the special values `+inf`, `-inf` and `nan`.  The
rational idealizes the binary mantissa (no rounding of decimal literals,
no overflow of huge exponents), but keeps the special-value behaviour of
Python arithmetic and comparisons, which is what the claims about
sanitization, sentinels and the zero-row filter depend on.  File I/O and
the `csv` tokenizer are outside the model: ingestion is embedded from the
level of a header row plus a list of data rows (each a list of cell
strings), exactly the values `csv.reader` hands to `load_csv`.
-/

/-- Model of a Python `float` value: exact rational for finite doubles,
plus the IEEE special values. -/
inductive PyFloat where
  | finite (q : ℚ)
  | pinf
  | ninf
  | nan
deriving DecidableEq

namespace PyFloat

/-- Python `v != v` is true exactly for NaN. -/
def isNan : PyFloat → Bool
  | nan => true
  | _ => false

/-- A value that is neither NaN nor an infinity. -/
def isFinite : PyFloat → Bool
  | finite _ => true
  | _ => false

/-- Python `abs` on floats. -/
def abs : PyFloat → PyFloat
  | finite q => finite |q|
  | pinf => pinf
  | ninf => pinf
  | nan => nan

/-- Python `<` against a finite constant (`nan < c` is `False`). -/
def ltRat : PyFloat → ℚ → Bool
  | finite q, c => q < c
  | pinf, _ => false
  | ninf, _ => true
  | nan, _ => false

/-- Python `==` on floats (`nan` compares unequal to everything). -/
def beq : PyFloat → PyFloat → Bool
  | finite a, finite b => a == b
  | pinf, pinf => true
  | ninf, ninf => true
  | _, _ => false

/-- Python float multiplication restricted to the cases that arise here. -/
def mul : PyFloat → PyFloat → PyFloat
  | finite a, finite b => finite (a * b)
  | finite a, pinf => if 0 < a then pinf else if a < 0 then ninf else nan
  | finite a, ninf => if 0 < a then ninf else if a < 0 then pinf else nan
  | pinf, finite b => if 0 < b then pinf else if b < 0 then ninf else nan
  | ninf, finite b => if 0 < b then ninf else if b < 0 then pinf else nan
  | pinf, pinf => pinf
  | pinf, ninf => ninf
  | ninf, pinf => ninf
  | ninf, ninf => pinf
  | _, _ => nan

/-- Python float addition. -/
def add : PyFloat → PyFloat → PyFloat
  | finite a, finite b => finite (a + b)
  | finite _, pinf => pinf
  | finite _, ninf => ninf
  | pinf, finite _ => pinf
  | ninf, finite _ => ninf
  | pinf, pinf => pinf
  | ninf, ninf => ninf
  | _, _ => nan

/-- Python float division.  Python raises `ZeroDivisionError` on a zero
divisor; the program only ever divides by the literal `5.0`, so that
branch is unreachable and is mapped to `nan` here. -/
def div : PyFloat → PyFloat → PyFloat
  | finite a, finite b => if b = 0 then nan else finite (a / b)
  | finite _, pinf => finite 0
  | finite _, ninf => finite 0
  | pinf, finite b => if 0 ≤ b then pinf else ninf
  | ninf, finite b => if 0 ≤ b then ninf else pinf
  | _, _ => nan

/-- Python truthiness of a float: only `0.0` is falsy. -/
def truthy : PyFloat → Bool
  | finite q => q != 0
  | _ => true

end PyFloat

/-! ### Model of Python `float(str)`

`safe_float` calls `float(s)` on a stripped cell string.  The model
covers the grammar the CSV cells can exercise: an optional sign, then
`inf` / `infinity` / `nan` (case-insensitive) or a decimal literal with
optional fractional part and optional exponent.  Idealizations: digit
group underscores are not modelled, and a finite literal is parsed to its
exact rational value (no binary rounding, no overflow to infinity). -/

/-- Value of a non-empty digit string. -/
def digitsVal (cs : List Char) : ℕ :=
  cs.foldl (fun n c => 10 * n + (c.toNat - 48)) 0

/-- All characters are ASCII digits. -/
def allDigits (cs : List Char) : Bool :=
  cs.all (fun c => c.isDigit)

/-- Parse the mantissa part `digits[.digits]` of a float literal,
returning the scaled integer value and the number of fractional digits. -/
def parseMantissa (s : String) : Option (ℕ × ℕ) :=
  match s.splitOn (".") with
  | [i] =>
      if 0 < i.length ∧ allDigits i.toList then some (digitsVal i.toList, 0) else none
  | [i, f] =>
      if 0 < i.length + f.length ∧ allDigits i.toList ∧ allDigits f.toList then
        some (digitsVal (i.toList ++ f.toList), f.length)
      else none
  | _ => none

/-- Parse a signed exponent. -/
def parseExpPart (s : String) : Option ℤ :=
  let (sg, d) : ℤ × String :=
    if s.startsWith ("+") then (1, s.drop 1)
    else if s.startsWith ("-") then (-1, s.drop 1)
    else (1, s)
  if 0 < d.length ∧ allDigits d.toList then some (sg * (digitsVal d.toList : ℤ)) else none

/-- Parse an unsigned decimal float literal (already lower-cased) to its
exact rational value. -/
def parseDecimalRat (s : String) : Option ℚ :=
  match s.splitOn ("e") with
  | [m] => (parseMantissa m).map (fun p => (p.1 : ℚ) / 10 ^ p.2)
  | [m, e] => do
      let p ← parseMantissa m
      let ex ← parseExpPart e
      pure (if 0 ≤ ex then ((p.1 : ℚ) / 10 ^ p.2) * 10 ^ ex.toNat
            else ((p.1 : ℚ) / 10 ^ p.2) / 10 ^ (-ex).toNat)
  | _ => none

/-- Model of Python `float(str)` on a stripped string: optional sign,
then `inf`/`infinity`/`nan` (case-insensitive) or a decimal literal.
`none` models `ValueError`. -/
def pyFloatOfString (s : String) : Option PyFloat :=
  let t := s.trim.toLower
  let (neg, body) : Bool × String :=
    if t.startsWith ("+") then (false, t.drop 1)
    else if t.startsWith ("-") then (true, t.drop 1)
    else (false, t)
  if body = "inf" ∨ body = "infinity" then
    some (if neg then PyFloat.ninf else PyFloat.pinf)
  else if body = "nan" then some PyFloat.nan
  else
    (parseDecimalRat body).map (fun q => PyFloat.finite (if neg then -q else q))

/-! ### Unit conversion constants (`volve_wits_server.py` lines 38-51) -/

def M_TO_FT : ℚ := 3.28084
def KKGF_TO_KLBF : ℚ := 2.20462
def KNM_TO_KFTLB : ℚ := 0.737562
def MH_TO_FTHR : ℚ := 3.28084
def KPA_TO_PSI : ℚ := 0.145038
def LMIN_TO_GPM : ℚ := 0.264172
def GCM3_TO_PPG : ℚ := 8.34540
def M3_TO_BBL : ℚ := 6.28981

/-- `celsius_to_fahrenheit` (lines 48-51): `0.0` is a missing-data
sentinel mapped to `0.0`; every other value goes through the linear
formula `c * 9.0 / 5.0 + 32.0` in Python float arithmetic. -/
def celsius_to_fahrenheit (c : PyFloat) : PyFloat :=
  if c.beq (PyFloat.finite 0) then PyFloat.finite 0
  else ((c.mul (PyFloat.finite 9)).div (PyFloat.finite 5)).add (PyFloat.finite 32)

/-! ### `safe_float` (lines 152-165) -/

/-- `safe_float(fields, idx)`: out-of-range or negative index, an empty
or null-marker cell, an unparseable cell, or a NaN parse all yield `0.0`;
otherwise the parsed value is returned unchanged. -/
def safe_float (fields : List String) (idx : ℤ) : PyFloat :=
  if idx < 0 ∨ (fields.length : ℤ) ≤ idx then PyFloat.finite 0
  else
    let s := (fields.getD idx.toNat ("")).trim
    if s = "" ∨ ["nan", "null", "-", ""].contains s.toLower then PyFloat.finite 0
    else
      match pyFloatOfString s with
      | none => PyFloat.finite 0
      | some v => if v.isNan then PyFloat.finite 0 else v

/-! ### WITS Level 0 channel codes (lines 58-76) -/

def WITS_BLOCK_POS : String := "0105"
def WITS_BIT_DEPTH : String := "0108"
def WITS_HOLE_DEPTH : String := "0110"
def WITS_ROP : String := "0113"
def WITS_HOOK_LOAD : String := "0114"
def WITS_WOB : String := "0116"
def WITS_RPM : String := "0117"
def WITS_TORQUE : String := "0118"
def WITS_SPP : String := "0119"
def WITS_PUMP_SPM : String := "0120"
def WITS_FLOW_IN : String := "0121"
def WITS_PIT_VOL : String := "0123"
def WITS_MW_IN : String := "0124"
def WITS_MW_OUT : String := "0125"
def WITS_TEMP_IN : String := "0126"
def WITS_TEMP_OUT : String := "0127"
def WITS_GAS : String := "0140"
def WITS_ECD : String := "0150"

/-! ### Column mapping (`ColumnMap`, `map_columns`, lines 83-149) -/

/-- The semantic fields of `ColumnMap`. -/
inductive FieldName where
  | time | bit_depth | hole_depth | wob | torque | rpm | rop | spp
  | hook_load | flow_in | mw_in | mw_out | ecd | temp_in | temp_out
  | gas | pump_spm | pit_volume | block_pos
deriving DecidableEq

/-- `ColumnMap` (lines 83-103): one column index per semantic field,
`-1` meaning absent. -/
structure ColumnMap where
  time : ℤ := -1
  bit_depth : ℤ := -1
  hole_depth : ℤ := -1
  wob : ℤ := -1
  torque : ℤ := -1
  rpm : ℤ := -1
  rop : ℤ := -1
  spp : ℤ := -1
  hook_load : ℤ := -1
  flow_in : ℤ := -1
  mw_in : ℤ := -1
  mw_out : ℤ := -1
  ecd : ℤ := -1
  temp_in : ℤ := -1
  temp_out : ℤ := -1
  gas : ℤ := -1
  pump_spm : ℤ := -1
  pit_volume : ℤ := -1
  block_pos : ℤ := -1
deriving DecidableEq

def ColumnMap.get (m : ColumnMap) : FieldName → ℤ
  | .time => m.time
  | .bit_depth => m.bit_depth
  | .hole_depth => m.hole_depth
  | .wob => m.wob
  | .torque => m.torque
  | .rpm => m.rpm
  | .rop => m.rop
  | .spp => m.spp
  | .hook_load => m.hook_load
  | .flow_in => m.flow_in
  | .mw_in => m.mw_in
  | .mw_out => m.mw_out
  | .ecd => m.ecd
  | .temp_in => m.temp_in
  | .temp_out => m.temp_out
  | .gas => m.gas
  | .pump_spm => m.pump_spm
  | .pit_volume => m.pit_volume
  | .block_pos => m.block_pos

def ColumnMap.set (m : ColumnMap) (f : FieldName) (i : ℤ) : ColumnMap :=
  match f with
  | .time => { m with time := i }
  | .bit_depth => { m with bit_depth := i }
  | .hole_depth => { m with hole_depth := i }
  | .wob => { m with wob := i }
  | .torque => { m with torque := i }
  | .rpm => { m with rpm := i }
  | .rop => { m with rop := i }
  | .spp => { m with spp := i }
  | .hook_load => { m with hook_load := i }
  | .flow_in => { m with flow_in := i }
  | .mw_in => { m with mw_in := i }
  | .mw_out => { m with mw_out := i }
  | .ecd => { m with ecd := i }
  | .temp_in => { m with temp_in := i }
  | .temp_out => { m with temp_out := i }
  | .gas => { m with gas := i }
  | .pump_spm => { m with pump_spm := i }
  | .pit_volume => { m with pit_volume := i }
  | .block_pos => { m with block_pos := i }

/-- One arm of the `elif` chain of `map_columns`: does the (stripped,
lower-cased) column text match the pattern of field `f`? -/
def matchesPattern (f : FieldName) (cl : String) : Bool :=
  match f with
  | .time => cl == "time time" || cl == "datetime parsed"
  | .bit_depth => cl.startsWith ("bit depth")
  | .hole_depth => cl.startsWith ("total depth") || cl.startsWith ("hole depth")
  | .wob => cl.startsWith ("weight on bit")
  | .torque => cl.startsWith ("average surface torque")
  | .rpm => cl.startsWith ("average rotary speed")
  | .rop => cl.startsWith ("rate of penetration")
  | .spp => cl.startsWith ("stand pipe pressure")
  | .hook_load => cl.startsWith ("total hookload")
  | .flow_in => cl.startsWith ("mud flow in")
  | .mw_in => cl.startsWith ("mud density in")
  | .mw_out => cl.startsWith ("mud density out")
  | .ecd => cl.startsWith ("equivalent circulating")
  | .temp_in => cl.startsWith ("tmp in")
  | .temp_out => cl.startsWith ("temperature out")
  | .gas => cl.startsWith ("gas (avg)")
  | .pump_spm => cl.startsWith ("total spm")
  | .pit_volume => cl.startsWith ("tank volume")
  | .block_pos => cl.startsWith ("block position")

/-- The order in which the `elif` chain of `map_columns` tries patterns. -/
def priorityOrder : List FieldName :=
  [.time, .bit_depth, .hole_depth, .wob, .torque, .rpm, .rop, .spp,
   .hook_load, .flow_in, .mw_in, .mw_out, .ecd, .temp_in, .temp_out,
   .gas, .pump_spm, .pit_volume, .block_pos]

/-- The field a header column is assigned to: the first pattern in the
priority order matching the column's stripped, lower-cased text (shown
equal to a `find?` over `priorityOrder` in `assignedField_first_match`). -/
def assignedFieldCl (cl : String) : Option FieldName :=
  if cl == "time time" || cl == "datetime parsed" then some FieldName.time
  else if cl.startsWith ("bit depth") then some FieldName.bit_depth
  else if cl.startsWith ("total depth") || cl.startsWith ("hole depth") then some FieldName.hole_depth
  else if cl.startsWith ("weight on bit") then some FieldName.wob
  else if cl.startsWith ("average surface torque") then some FieldName.torque
  else if cl.startsWith ("average rotary speed") then some FieldName.rpm
  else if cl.startsWith ("rate of penetration") then some FieldName.rop
  else if cl.startsWith ("stand pipe pressure") then some FieldName.spp
  else if cl.startsWith ("total hookload") then some FieldName.hook_load
  else if cl.startsWith ("mud flow in") then some FieldName.flow_in
  else if cl.startsWith ("mud density in") then some FieldName.mw_in
  else if cl.startsWith ("mud density out") then some FieldName.mw_out
  else if cl.startsWith ("equivalent circulating") then some FieldName.ecd
  else if cl.startsWith ("tmp in") then some FieldName.temp_in
  else if cl.startsWith ("temperature out") then some FieldName.temp_out
  else if cl.startsWith ("gas (avg)") then some FieldName.gas
  else if cl.startsWith ("total spm") then some FieldName.pump_spm
  else if cl.startsWith ("tank volume") then some FieldName.pit_volume
  else if cl.startsWith ("block position") then some FieldName.block_pos
  else none

/-- The field a header column is assigned to, from its raw text. -/
def assignedField (col : String) : Option FieldName :=
  assignedFieldCl (col.trim.toLower)

/-- The body of the `for` loop of `map_columns` (lines 109-148): the
`elif` chain tries the patterns in priority order on the column text;
the first arm that matches assigns this column's index to that arm's
field.  The chain of conditions is `assignedFieldCl`, each arm's
assignment `m.<field> = i` is `ColumnMap.set` of the arm's field. -/
def mapColumnsStepCl (m : ColumnMap) (i : ℤ) (cl : String) : ColumnMap :=
  match assignedFieldCl cl with
  | some f => m.set f i
  | none => m

/-- The body of the `for` loop applied to the raw column text, with
`cl = col.strip().lower()` (line 110). -/
def mapColumnsStep (m : ColumnMap) (i : ℤ) (col : String) : ColumnMap :=
  mapColumnsStepCl m i (col.trim.toLower)

/-- `map_columns` (lines 106-149): fold the `elif` chain over the
enumerated header. -/
def map_columns (header : List String) : ColumnMap :=
  header.enum.foldl (fun m p => mapColumnsStep m (p.1 : ℤ) p.2) {}

/-- The column index the spec predicts for a field: the last header
column (in header order) whose first matching pattern is this field,
`-1` when none matches. -/
def lastMatchIdx (header : List String) (f : FieldName) : ℤ :=
  header.enum.foldl
    (fun acc p => if assignedField p.2 = some f then (p.1 : ℤ) else acc) (-1)

/-! ### `WitsRecord` and the frame codec (lines 172-220) -/

/-- `WitsRecord` (lines 172-192): one canonical record in oilfield
units. -/
structure WitsRecord where
  bit_depth : PyFloat := PyFloat.finite 0
  hole_depth : PyFloat := PyFloat.finite 0
  wob : PyFloat := PyFloat.finite 0
  torque : PyFloat := PyFloat.finite 0
  rpm : PyFloat := PyFloat.finite 0
  rop : PyFloat := PyFloat.finite 0
  hook_load : PyFloat := PyFloat.finite 0
  spp : PyFloat := PyFloat.finite 0
  flow_in : PyFloat := PyFloat.finite 0
  mw_in : PyFloat := PyFloat.finite 0
  mw_out : PyFloat := PyFloat.finite 0
  ecd : PyFloat := PyFloat.finite 0
  temp_in : PyFloat := PyFloat.finite 0
  temp_out : PyFloat := PyFloat.finite 0
  gas : PyFloat := PyFloat.finite 0
  pump_spm : PyFloat := PyFloat.finite 0
  pit_volume : PyFloat := PyFloat.finite 0
  block_pos : PyFloat := PyFloat.finite 0
deriving DecidableEq

/-- The `items` list of `to_wits_frame` (lines 197-216), in source
order. -/
def frameItems (r : WitsRecord) : List (String × PyFloat) :=
  [(WITS_BIT_DEPTH, r.bit_depth),
   (WITS_HOLE_DEPTH, r.hole_depth),
   (WITS_ROP, r.rop),
   (WITS_HOOK_LOAD, r.hook_load),
   (WITS_WOB, r.wob),
   (WITS_RPM, r.rpm),
   (WITS_TORQUE, r.torque),
   (WITS_SPP, r.spp),
   (WITS_PUMP_SPM, r.pump_spm),
   (WITS_FLOW_IN, r.flow_in),
   (WITS_MW_IN, r.mw_in),
   (WITS_MW_OUT, r.mw_out),
   (WITS_ECD, r.ecd),
   (WITS_TEMP_IN, r.temp_in),
   (WITS_TEMP_OUT, r.temp_out),
   (WITS_GAS, r.gas),
   (WITS_PIT_VOL, r.pit_volume),
   (WITS_BLOCK_POS, r.block_pos)]

/-- Round a rational to the nearest integer, ties to even, as IEEE/Python
`%.2f` formatting does on the scaled value. -/
def roundHalfEven (q : ℚ) : ℤ :=
  let f := ⌊q⌋
  let r := q - (f : ℚ)
  if r < 1 / 2 then f
  else if 1 / 2 < r then f + 1
  else if f % 2 = 0 then f else f + 1

/-- Python `f"{v:.2f}"`: sign, unpadded integer part, a dot, then exactly
two fractional digits.  Special values format as Python prints them. -/
def fmt2 : PyFloat → String
  | PyFloat.finite q =>
      let n := roundHalfEven (q * 100)
      (if n < 0 then "-" else "") ++ toString (n.natAbs / 100) ++ "." ++
        String.mk [Nat.digitChar (n.natAbs % 100 / 10), Nat.digitChar (n.natAbs % 100 % 10)]
  | PyFloat.pinf => "inf"
  | PyFloat.ninf => "-inf"
  | PyFloat.nan => "nan"

def CRLF : String := "\r\n"

/-- Python `sep.join(lines)`. -/
def joinSep (sep : String) : List String → String
  | [] => ""
  | [x] => x
  | x :: y :: xs => x ++ sep ++ joinSep sep (y :: xs)

/-- `to_wits_frame` (lines 194-220): `"\r\n".join(lines) + "\r\n"` over
`["&&"]`, the 18 code-value lines, and `["!!"]`. -/
def to_wits_frame (r : WitsRecord) : String :=
  joinSep CRLF (["&&"] ++ (frameItems r).map (fun it => it.1 ++ fmt2 it.2) ++ ["!!"]) ++ CRLF

/-- The frame shape the spec describes: the `&&` line, then one
CRLF-terminated `code ++ value` line per item, then the `!!` line. -/
def frameSpec (r : WitsRecord) : String :=
  "&&" ++ CRLF ++
    (frameItems r).foldr (fun it acc => it.1 ++ fmt2 it.2 ++ CRLF ++ acc) ("!!" ++ CRLF)

/-! ### Ingestion (`load_csv`, lines 223-287) -/

/-- The blank-row test of line 234: `not fields or all empty after
strip`. -/
def rowIsBlank (fields : List String) : Bool :=
  fields.isEmpty || fields.all (fun f => f.trim = "")

/-- The five-channel sensor-gap test of lines 258-260, on the raw metric
values extracted from the row. -/
def fiveZero (col : ColumnMap) (fields : List String) : Bool :=
  (safe_float fields col.wob).abs.ltRat (1 / 10 ^ 10) &&
  (safe_float fields col.rpm).abs.ltRat (1 / 10 ^ 10) &&
  (safe_float fields col.rop).abs.ltRat (1 / 10 ^ 10) &&
  (safe_float fields col.spp).abs.ltRat (1 / 10 ^ 10) &&
  (safe_float fields col.bit_depth).abs.ltRat (1 / 10 ^ 10)

/-- What one iteration of the `load_csv` row loop does with a row. -/
inductive RowResult where
  | blank
  | skipped
  | emitted (r : WitsRecord)
deriving DecidableEq

/-- The body of the row loop of `load_csv` (lines 233-285): blank rows
are passed over, sensor-gap rows are skipped, all others are converted
to a `WitsRecord` in oilfield units. -/
def loadRow (col : ColumnMap) (fields : List String) : RowResult :=
  if rowIsBlank fields then RowResult.blank
  else
    let raw_depth := safe_float fields col.bit_depth
    let raw_hole := safe_float fields col.hole_depth
    let raw_wob := safe_float fields col.wob
    let raw_torque := safe_float fields col.torque
    let raw_rpm := safe_float fields col.rpm
    let raw_rop := safe_float fields col.rop
    let raw_hookload := safe_float fields col.hook_load
    let raw_spp := safe_float fields col.spp
    let raw_flow_in := safe_float fields col.flow_in
    let raw_mw_in := safe_float fields col.mw_in
    let raw_mw_out := safe_float fields col.mw_out
    let raw_ecd := safe_float fields col.ecd
    let raw_temp_in := safe_float fields col.temp_in
    let raw_temp_out := safe_float fields col.temp_out
    let raw_gas := safe_float fields col.gas
    let raw_pump_spm := safe_float fields col.pump_spm
    let raw_pit_vol := safe_float fields col.pit_volume
    let raw_block_pos := safe_float fields col.block_pos
    if raw_wob.abs.ltRat (1 / 10 ^ 10) && raw_rpm.abs.ltRat (1 / 10 ^ 10) &&
       raw_rop.abs.ltRat (1 / 10 ^ 10) && raw_spp.abs.ltRat (1 / 10 ^ 10) &&
       raw_depth.abs.ltRat (1 / 10 ^ 10) then RowResult.skipped
    else
      RowResult.emitted
        { bit_depth := raw_depth.mul (PyFloat.finite M_TO_FT)
          hole_depth := (if raw_hole.truthy then raw_hole else raw_depth).mul (PyFloat.finite M_TO_FT)
          wob := raw_wob.mul (PyFloat.finite KKGF_TO_KLBF)
          torque := raw_torque.mul (PyFloat.finite KNM_TO_KFTLB)
          rpm := raw_rpm
          rop := raw_rop.mul (PyFloat.finite MH_TO_FTHR)
          hook_load := raw_hookload.mul (PyFloat.finite KKGF_TO_KLBF)
          spp := raw_spp.mul (PyFloat.finite KPA_TO_PSI)
          flow_in := raw_flow_in.mul (PyFloat.finite LMIN_TO_GPM)
          mw_in := raw_mw_in.mul (PyFloat.finite GCM3_TO_PPG)
          mw_out := raw_mw_out.mul (PyFloat.finite GCM3_TO_PPG)
          ecd := raw_ecd.mul (PyFloat.finite GCM3_TO_PPG)
          temp_in := celsius_to_fahrenheit raw_temp_in
          temp_out := celsius_to_fahrenheit raw_temp_out
          gas := raw_gas
          pump_spm := raw_pump_spm
          pit_volume := raw_pit_vol.mul (PyFloat.finite M3_TO_BBL)
          block_pos := raw_block_pos.mul (PyFloat.finite M_TO_FT) }

/-- One row's effect on the `(records, skipped)` accumulator. -/
def ingestStep (col : ColumnMap) (acc : List WitsRecord × ℕ) (fields : List String) :
    List WitsRecord × ℕ :=
  match loadRow col fields with
  | RowResult.blank => acc
  | RowResult.skipped => (acc.1, acc.2 + 1)
  | RowResult.emitted r => (acc.1 ++ [r], acc.2)

/-- The row loop of `load_csv`: the final `(records, skipped)` pair held
in its local variables. -/
def load_csv_aux (col : ColumnMap) (rows : List (List String)) : List WitsRecord × ℕ :=
  rows.foldl (ingestStep col) ([], 0)

/-- `load_csv` (lines 223-287): the function returns only `records`
(line 287); the `skipped` counter stays local to the loop. -/
def load_csv (header : List String) (rows : List (List String)) : List WitsRecord :=
  (load_csv_aux (map_columns header) rows).1

/-! ### Broadcast server model (`WitsServer`, lines 294-392)

The asyncio server is single-threaded and cooperatively scheduled: the
feed loop mutates state only at its own checkpoints.  The model makes
the feed loop a step function over an explicit state.  Clients are
identified by naturals.  The environment (the accept path and the
per-client monitors, which run between feed-loop checkpoints) supplies,
per step, the registry contents observed at the step's checks together
with the set of client writes that would fail during a broadcast.
Shutdown (`self.running`) is not modelled: all claims are about runs
with the flag up. -/

/-- `WitsServer.broadcast` (lines 321-332): attempt a write to every
registered client, collect the failing ones in `dead`, then discard the
failed clients from the registry.  Returns the new registry and the list
of clients a delivery was attempted to. -/
def broadcastStep (clients : List ℕ) (fails : ℕ → Bool) : List ℕ × List ℕ :=
  let dead := clients.foldl (fun acc c => if fails c then acc ++ [c] else acc) []
  (dead.foldl (fun cs w => cs.erase w) clients, clients)

/-- The mutable state of the feed loop: playback cursor, sent counter,
pass counter and client registry. -/
structure SrvState where
  idx : ℕ
  sent : ℕ
  passNum : ℕ
  clients : List ℕ
deriving DecidableEq

/-- A `broadcast` call as seen from the whole server state: only the
client registry is touched. -/
def srvBroadcast (s : SrvState) (fails : ℕ → Bool) : SrvState :=
  { s with clients := (broadcastStep s.clients fails).1 }

/-- One checkpoint-to-checkpoint turn of `_feed_loop` (lines 346-392),
given the registry contents `inp.1` observed at this turn's checks and
the failing writes `inp.2`.  Inside a pass: an empty registry means one
0.1 s poll with cursor and counter untouched; otherwise the current
record is framed, broadcast, the counter incremented and the cursor
advanced.  At the end of a pass: restart when loop-replay is on, else
idle.  The returned list holds the (cursor, frame) pairs broadcast
during the turn. -/
def feedStep (records : List WitsRecord) (loopReplay : Bool)
    (inp : List ℕ × (ℕ → Bool)) (s : SrvState) : SrvState × List (ℕ × String) :=
  if h : s.idx < records.length then
    if inp.1 = [] then ({ s with clients := inp.1 }, [])
    else
      ({ idx := s.idx + 1, sent := s.sent + 1, passNum := s.passNum,
         clients := (broadcastStep inp.1 inp.2).1 },
       [(s.idx, to_wits_frame (records.get ⟨s.idx, h⟩))])
  else if loopReplay then
    ({ s with idx := 0, passNum := s.passNum + 1, clients := inp.1 }, [])
  else
    ({ s with clients := inp.1 }, [])

/-- Run the feed loop over a list of per-turn environment inputs,
collecting every (cursor, frame) pair broadcast along the way. -/
def feedRun (records : List WitsRecord) (loopReplay : Bool) :
    List (List ℕ × (ℕ → Bool)) → SrvState → SrvState × List (ℕ × String)
  | [], s => (s, [])
  | inp :: inps, s =>
      let step := feedStep records loopReplay inp s
      let rest := feedRun records loopReplay inps step.1
      (rest.1, step.2 ++ rest.2)

/-! ### Helper lemmas about the row loop -/

/-- The record built from a surviving row (lines 265-284), named for use
in lemmas; `loadRow` builds exactly this record. -/
def convertRow (col : ColumnMap) (fields : List String) : WitsRecord :=
  { bit_depth := (safe_float fields col.bit_depth).mul (PyFloat.finite M_TO_FT)
    hole_depth := (if (safe_float fields col.hole_depth).truthy then safe_float fields col.hole_depth
                   else safe_float fields col.bit_depth).mul (PyFloat.finite M_TO_FT)
    wob := (safe_float fields col.wob).mul (PyFloat.finite KKGF_TO_KLBF)
    torque := (safe_float fields col.torque).mul (PyFloat.finite KNM_TO_KFTLB)
    rpm := safe_float fields col.rpm
    rop := (safe_float fields col.rop).mul (PyFloat.finite MH_TO_FTHR)
    hook_load := (safe_float fields col.hook_load).mul (PyFloat.finite KKGF_TO_KLBF)
    spp := (safe_float fields col.spp).mul (PyFloat.finite KPA_TO_PSI)
    flow_in := (safe_float fields col.flow_in).mul (PyFloat.finite LMIN_TO_GPM)
    mw_in := (safe_float fields col.mw_in).mul (PyFloat.finite GCM3_TO_PPG)
    mw_out := (safe_float fields col.mw_out).mul (PyFloat.finite GCM3_TO_PPG)
    ecd := (safe_float fields col.ecd).mul (PyFloat.finite GCM3_TO_PPG)
    temp_in := celsius_to_fahrenheit (safe_float fields col.temp_in)
    temp_out := celsius_to_fahrenheit (safe_float fields col.temp_out)
    gas := safe_float fields col.gas
    pump_spm := safe_float fields col.pump_spm
    pit_volume := (safe_float fields col.pit_volume).mul (PyFloat.finite M3_TO_BBL)
    block_pos := (safe_float fields col.block_pos).mul (PyFloat.finite M_TO_FT) }

lemma loadRow_blank_iff (col : ColumnMap) (fields : List String) :
    loadRow col fields = RowResult.blank ↔ rowIsBlank fields = true := by
  by_cases hb : rowIsBlank fields = true <;>
    simp only [loadRow, hb, if_true, if_false, Bool.not_eq_true] <;>
    simp [hb]
  split <;> simp

lemma loadRow_skipped_iff (col : ColumnMap) (fields : List String) :
    loadRow col fields = RowResult.skipped ↔
      (rowIsBlank fields = false ∧ fiveZero col fields = true) := by
  by_cases hb : rowIsBlank fields = true
  · simp [loadRow, hb]
  · simp only [loadRow, hb, Bool.not_eq_true] at *
    simp only [hb, if_false, fiveZero]
    split <;> simp_all <;> tauto

lemma loadRow_emitted (col : ColumnMap) (fields : List String)
    (hb : rowIsBlank fields = false) (hz : fiveZero col fields = false) :
    loadRow col fields = RowResult.emitted (convertRow col fields) := by
  simp only [loadRow, hb, if_false, Bool.false_eq_true]
  simp only [fiveZero] at hz
  simp only [hz, if_false, Bool.false_eq_true, convertRow]

/-- What the row loop accumulates: emitted records in row order appended
to the accumulator, and one skip count per sensor-gap row. -/
lemma ingest_foldl_spec (col : ColumnMap) :
    ∀ (rows : List (List String)) (recs : List WitsRecord) (n : ℕ),
      (rows.foldl (ingestStep col) (recs, n)).1
          = recs ++ rows.filterMap (fun fields =>
              match loadRow col fields with
              | RowResult.emitted r => some r
              | _ => none)
      ∧ (rows.foldl (ingestStep col) (recs, n)).2
          = n + rows.countP (fun fields => loadRow col fields == RowResult.skipped) := by
  intro rows
  induction rows with
  | nil => intro recs n; simp
  | cons a l ih =>
      intro recs n
      rcases hcase : loadRow col a with _ | _ | r
      · have h1 := ih recs n
        simp only [List.foldl_cons, List.filterMap_cons, List.countP_cons, ingestStep, hcase]
        constructor
        · simpa using h1.1
        · simp only [h1.2]
          simp
      · have h1 := ih recs (n + 1)
        simp only [List.foldl_cons, List.filterMap_cons, List.countP_cons, ingestStep, hcase]
        constructor
        · simpa using h1.1
        · simp only [h1.2]
          simp
          omega
      · have h1 := ih (recs ++ [r]) n
        simp only [List.foldl_cons, List.filterMap_cons, List.countP_cons, ingestStep, hcase]
        constructor
        · simp only [h1.1]
          simp
        · simp only [h1.2]
          simp

/-- Emitted rows plus skipped rows account for exactly the non-blank
rows. -/
lemma emitted_skipped_count (col : ColumnMap) :
    ∀ rows : List (List String),
      (rows.filterMap (fun fields =>
          match loadRow col fields with
          | RowResult.emitted r => some r
          | _ => none)).length
        + rows.countP (fun fields => loadRow col fields == RowResult.skipped)
        = rows.countP (fun fields => !rowIsBlank fields) := by
  intro rows
  induction rows with
  | nil => simp
  | cons a l ih =>
      rcases h : loadRow col a with _ | _ | r
      · have hb : rowIsBlank a = true := (loadRow_blank_iff col a).mp h
        simp [List.filterMap_cons, List.countP_cons, h, hb, ih]
      · have hb : rowIsBlank a = false := ((loadRow_skipped_iff col a).mp h).1
        simp [List.filterMap_cons, List.countP_cons, h, hb, ih]
        omega
      · have hb : rowIsBlank a = false := by
          cases hb2 : rowIsBlank a
          · rfl
          · exact absurd h (by simp [(loadRow_blank_iff col a).mpr hb2])
        simp [List.filterMap_cons, List.countP_cons, h, hb]
        omega

/-- C3: during one ingestion pass every non-blank data row is either
emitted as a `WitsRecord` or counted by the skipped counter (the loop
classifies each row exclusively as blank, skipped, or emitted, and blank
coincides with the all-whitespace test), so the number of emitted records
plus the skipped count equals the number of data rows read. -/
theorem ingestion_partition (header : List String) (rows : List (List String)) :
    (∀ fields, loadRow (map_columns header) fields = RowResult.blank
        ↔ rowIsBlank fields = true)
    ∧ (∀ fields, loadRow (map_columns header) fields = RowResult.blank
        ∨ loadRow (map_columns header) fields = RowResult.skipped
        ∨ ∃ r, loadRow (map_columns header) fields = RowResult.emitted r)
    ∧ (load_csv header rows).length + (load_csv_aux (map_columns header) rows).2
        = rows.countP (fun fields => !rowIsBlank fields) := by
  refine ⟨fun fields => loadRow_blank_iff _ _, fun fields => ?_, ?_⟩
  · rcases h : loadRow (map_columns header) fields with _ | _ | r
    · exact Or.inl rfl
    · exact Or.inr (Or.inl rfl)
    · exact Or.inr (Or.inr ⟨r, rfl⟩)
  · have s := ingest_foldl_spec (map_columns header) rows [] 0
    simp only [load_csv, load_csv_aux] at *
    rw [s.1, s.2]
    simpa using emitted_skipped_count (map_columns header) rows

/-- C4: a non-blank data row is skipped exactly when the five raw metric
values for weight-on-bit, rotary speed, rate-of-penetration, standpipe
pressure and bit depth are all within 1e-10 of zero (the test reads none
of the other 13 channels), and a row in which any of the five reaches the
tolerance is emitted. -/
theorem row_filter_iff (col : ColumnMap) (fields : List String)
    (hb : rowIsBlank fields = false) :
    (loadRow col fields = RowResult.skipped ↔ fiveZero col fields = true)
    ∧ (fiveZero col fields = false →
        loadRow col fields = RowResult.emitted (convertRow col fields)) := by
  constructor
  · rw [loadRow_skipped_iff]
    simp [hb]
  · intro hz
    exact loadRow_emitted col fields hb hz

set_option maxRecDepth 20000 in
/-- Witness for C4: a row whose five filter channels are zero is skipped
even though its gas channel reads 7. -/
theorem row_filter_iff_witness :
    rowIsBlank (["0", "7"]) = false
    ∧ loadRow (map_columns ["bit depth", "gas (avg)"]) ["0", "7"] = RowResult.skipped := by
  refine ⟨by with_unfolding_all decide, ?_⟩
  exact (row_filter_iff _ _ (by with_unfolding_all decide)).1.mpr
    (by with_unfolding_all decide)

/-- C9 counterexample: two input files whose ingestion passes return the
identical value to the caller although their skipped-row counts differ
(0 versus 1), so the skipped count is not part of what one ingestion
pass returns; only the record list is. -/
theorem load_csv_drops_skip_count :
    load_csv ["bit depth"] [["2.0"]] = load_csv ["bit depth"] [["0"], ["2.0"]]
    ∧ (load_csv_aux (map_columns ["bit depth"]) [["2.0"]]).2
        ≠ (load_csv_aux (map_columns ["bit depth"]) [["0"], ["2.0"]]).2 := by
  have hz : loadRow (map_columns ["bit depth"]) ["0"] = RowResult.skipped :=
    (loadRow_skipped_iff _ _).mpr
      ⟨by with_unfolding_all decide, by with_unfolding_all decide⟩
  have hx : loadRow (map_columns ["bit depth"]) ["2.0"]
      = RowResult.emitted (convertRow (map_columns ["bit depth"]) ["2.0"]) :=
    loadRow_emitted _ _ (by with_unfolding_all decide) (by with_unfolding_all decide)
  have s1 := ingest_foldl_spec (map_columns ["bit depth"]) [["2.0"]] [] 0
  have s2 := ingest_foldl_spec (map_columns ["bit depth"]) [["0"], ["2.0"]] [] 0
  constructor
  · simp only [load_csv, load_csv_aux] at *
    rw [s1.1, s2.1]
    simp [List.filterMap_cons, hz, hx]
  · simp only [load_csv_aux] at *
    rw [s1.2, s2.2]
    simp [List.countP_cons, hz, hx]

/-- C9 amended: one ingestion pass returns to its caller the ordered
sequence of emitted records only; the skipped-row count is kept in a
loop-local counter and is not part of the returned value. -/
theorem load_csv_returns_emitted_sequence (header : List String)
    (rows : List (List String)) :
    load_csv header rows
      = rows.filterMap (fun fields =>
          match loadRow (map_columns header) fields with
          | RowResult.emitted r => some r
          | _ => none) := by
  have s := ingest_foldl_spec (map_columns header) rows [] 0
  simp only [load_csv, load_csv_aux]
  rw [s.1]
  simp

/-- C5: the Celsius-to-Fahrenheit conversion maps exactly 0.0 to 0.0
(not 32.0), maps every other value c through c * 9 / 5 + 32 (shown both
on exact rationals and as the float formula of the source), and maps
100.0 to 212.0. -/
theorem celsius_sentinel :
    celsius_to_fahrenheit (PyFloat.finite 0) = PyFloat.finite 0
    ∧ (∀ q : ℚ, q ≠ 0 →
        celsius_to_fahrenheit (PyFloat.finite q) = PyFloat.finite (q * 9 / 5 + 32))
    ∧ (∀ c : PyFloat, c.beq (PyFloat.finite 0) = false →
        celsius_to_fahrenheit c
          = ((c.mul (PyFloat.finite 9)).div (PyFloat.finite 5)).add (PyFloat.finite 32))
    ∧ celsius_to_fahrenheit (PyFloat.finite 100) = PyFloat.finite 212 := by
  refine ⟨by simp [celsius_to_fahrenheit, PyFloat.beq], ?_, ?_, ?_⟩
  · intro q hq
    simp only [celsius_to_fahrenheit, PyFloat.beq, beq_iff_eq, hq, if_false,
      PyFloat.mul, PyFloat.div, PyFloat.add]
    norm_num
  · intro c hc
    simp [celsius_to_fahrenheit, hc]
  · simp only [celsius_to_fahrenheit, PyFloat.beq, beq_iff_eq,
      PyFloat.mul, PyFloat.div, PyFloat.add]
    norm_num

/-- Witness for C5 at the non-zero input 37 degrees Celsius. -/
theorem celsius_sentinel_witness :
    (37 : ℚ) ≠ 0
    ∧ celsius_to_fahrenheit (PyFloat.finite 37) = PyFloat.finite (37 * 9 / 5 + 32) :=
  ⟨by norm_num, celsius_sentinel.2.1 37 (by norm_num)⟩

set_option maxRecDepth 20000 in
/-- C2 failing input: the cell text `"inf"` passes the null-marker and
NaN checks of `safe_float` and `float("inf")` parses, so `safe_float`
returns positive infinity rather than 0.0 or a finite value, and the
infinity propagates into the `temp_in` field of an ingested record. -/
theorem safe_float_inf_escapes :
    safe_float ["inf"] 0 = PyFloat.pinf
    ∧ (safe_float ["inf"] 0).isNan = false
    ∧ (load_csv ["bit depth", "tmp in"] [["1.0", "inf"]]).map (fun r => r.temp_in)
        = [PyFloat.pinf] := by
  refine ⟨by with_unfolding_all decide, by with_unfolding_all decide, ?_⟩
  have hx : loadRow (map_columns ["bit depth", "tmp in"]) ["1.0", "inf"]
      = RowResult.emitted (convertRow (map_columns ["bit depth", "tmp in"]) ["1.0", "inf"]) :=
    loadRow_emitted _ _ (by with_unfolding_all decide) (by with_unfolding_all decide)
  have s := ingest_foldl_spec (map_columns ["bit depth", "tmp in"]) [["1.0", "inf"]] [] 0
  simp only [load_csv, load_csv_aux]
  rw [s.1]
  simp only [List.filterMap_cons, List.filterMap_nil, hx, List.nil_append,
    List.map_cons, List.map_nil]
  have hproj : (convertRow (map_columns ["bit depth", "tmp in"]) ["1.0", "inf"]).temp_in
      = celsius_to_fahrenheit
          (safe_float ["1.0", "inf"] (map_columns ["bit depth", "tmp in"]).temp_in) := rfl
  rw [hproj]
  with_unfolding_all decide

lemma find?_cons_ite {α : Type} (p : α → Bool) (a : α) (l : List α) :
    List.find? p (a :: l) = if p a then some a else List.find? p l := by
  cases h : p a <;> simp [List.find?, h]

/-- The assigned field is the first pattern in the fixed priority order
that matches the column text. -/
lemma assignedField_first_match (col : String) :
    assignedField col
      = priorityOrder.find? (fun g => matchesPattern g (col.trim.toLower)) := by
  unfold assignedField assignedFieldCl priorityOrder matchesPattern
  simp only [find?_cons_ite, List.find?_nil]

lemma ColumnMap.get_set (m : ColumnMap) (g f : FieldName) (i : ℤ) :
    (m.set g i).get f = if g = f then i else m.get f := by
  cases g <;> cases f <;> rfl

/-- One header column changes at most the one field selected by the
first matching pattern, and sets it to that column's index. -/
lemma mapColumnsStepCl_get (m : ColumnMap) (i : ℤ) (cl : String) (f : FieldName) :
    (mapColumnsStepCl m i cl).get f
      = match assignedFieldCl cl with
        | some g => if g = f then i else m.get f
        | none => m.get f := by
  rcases h : assignedFieldCl cl with _ | g
  · simp [mapColumnsStepCl, h]
  · simp [mapColumnsStepCl, h, ColumnMap.get_set]

lemma mapColumnsStep_get (m : ColumnMap) (i : ℤ) (col : String) (f : FieldName) :
    (mapColumnsStep m i col).get f
      = if assignedField col = some f then i else m.get f := by
  have h := mapColumnsStepCl_get m i (col.trim.toLower) f
  have he : assignedField col = assignedFieldCl (col.trim.toLower) := rfl
  rw [show mapColumnsStep m i col = mapColumnsStepCl m i (col.trim.toLower) from rfl, h, he]
  rcases hc : assignedFieldCl (col.trim.toLower) with _ | g
  · simp
  · by_cases hg : g = f <;> simp [hg]

/-- Folding the column loop equals folding the last-match recurrence on
one field's entry. -/
lemma map_columns_get_fold (cols : List String) :
    ∀ (n : ℕ) (m : ColumnMap) (f : FieldName),
      ((List.enumFrom n cols).foldl (fun m p => mapColumnsStep m (p.1 : ℤ) p.2) m).get f
        = (List.enumFrom n cols).foldl
            (fun acc p => if assignedField p.2 = some f then (p.1 : ℤ) else acc)
            (m.get f) := by
  induction cols with
  | nil => intro n m f; rfl
  | cons a l ih =>
      intro n m f
      simp only [List.enumFrom, List.foldl_cons]
      rw [ih (n + 1) (mapColumnsStep m (n : ℤ) a) f, mapColumnsStep_get]

/-- C6: each header column is assigned to at most one semantic field,
namely the first pattern in the fixed priority order that matches its
text (`assignedField` is by definition the first match over
`priorityOrder`), and the index finally recorded for a field is the one
of the last matching column in header order. -/
theorem column_mapping_last_wins (header : List String) (f : FieldName) :
    (∀ col : String,
        assignedField col
          = priorityOrder.find? (fun g => matchesPattern g (col.trim.toLower)))
    ∧ (∀ (m : ColumnMap) (i : ℤ) (col : String),
        (mapColumnsStep m i col).get f
          = if assignedField col = some f then i else m.get f)
    ∧ (map_columns header).get f = lastMatchIdx header f := by
  refine ⟨assignedField_first_match, fun m i col => mapColumnsStep_get m i col f, ?_⟩
  have h0 : (({} : ColumnMap)).get f = -1 := by cases f <;> rfl
  have h := map_columns_get_fold header 0 ({}) f
  rw [h0] at h
  exact h

/-! ### Helper lemmas for the broadcast step -/

lemma foldl_append_filter {α : Type} (p : α → Bool) :
    ∀ (l acc : List α),
      l.foldl (fun acc c => if p c then acc ++ [c] else acc) acc = acc ++ l.filter p := by
  intro l
  induction l with
  | nil => intro acc; simp
  | cons a t ih =>
      intro acc
      cases h : p a <;> simp [List.filter_cons, h, ih]

lemma foldl_erase_filter :
    ∀ (ds cs : List ℕ), cs.Nodup →
      ds.foldl (fun cs w => cs.erase w) cs = cs.filter (fun c => !ds.contains c) := by
  intro ds
  induction ds with
  | nil => intro cs h; simp
  | cons d t ih =>
      intro cs h
      simp only [List.foldl_cons]
      rw [ih (cs.erase d) (h.erase d), List.Nodup.erase_eq_filter h d,
        List.filter_filter]
      apply List.filter_congr
      intro c hc
      by_cases hcd : c = d <;> by_cases hct : c ∈ t <;>
        simp [List.contains_cons, hcd, hct]

/-- C8: in one broadcast step over a registry with some failing writes,
exactly the failing clients are removed (the survivors keep their order),
a delivery is attempted to every client registered at the start of the
step regardless of other failures (so a failure aborts nothing and no
retry happens within the step), and no server state other than the
registry changes. -/
theorem broadcast_removes_exactly_failed (clients : List ℕ) (fails : ℕ → Bool)
    (h : clients.Nodup) :
    (broadcastStep clients fails).1 = clients.filter (fun c => !fails c)
    ∧ (broadcastStep clients fails).2 = clients
    ∧ (∀ s : SrvState, s.clients = clients →
        (srvBroadcast s fails).idx = s.idx ∧ (srvBroadcast s fails).sent = s.sent
          ∧ (srvBroadcast s fails).passNum = s.passNum) := by
  refine ⟨?_, rfl, fun s hs => ⟨rfl, rfl, rfl⟩⟩
  simp only [broadcastStep]
  rw [foldl_append_filter fails clients [], List.nil_append,
    foldl_erase_filter (clients.filter fails) clients h]
  apply List.filter_congr
  intro c hc
  cases hf : fails c <;> simp [List.mem_filter, hc, hf]

/-- Witness for C8: from the registry `[1, 2, 3]`, a write failure on
client 2 removes exactly client 2, and delivery was attempted to all
three. -/
theorem broadcast_removes_exactly_failed_witness :
    ([1, 2, 3] : List ℕ).Nodup
    ∧ (broadcastStep [1, 2, 3] (fun c => c == 2)).1 = [1, 3]
    ∧ (broadcastStep [1, 2, 3] (fun c => c == 2)).2 = [1, 2, 3] := by
  have h := broadcast_removes_exactly_failed [1, 2, 3] (fun c => c == 2) (by decide)
  refine ⟨by decide, ?_, h.2.1⟩
  rw [h.1]
  decide

/-! ### Helper lemmas for the feed loop -/

lemma feedStep_empty (records : List WitsRecord) (lr : Bool) (fs : ℕ → Bool)
    (s : SrvState) (h : s.idx < records.length) :
    feedStep records lr ([], fs) s = ({ s with clients := [] }, []) := by
  simp [feedStep, h]

lemma feedRun_idle (records : List WitsRecord) (lr : Bool) (fs : ℕ → Bool) :
    ∀ (n : ℕ) (s : SrvState), s.idx < records.length → s.clients = [] →
      feedRun records lr (List.replicate n ([], fs)) s = (s, []) := by
  intro n
  induction n with
  | zero => intro s h hc; rfl
  | succ k ih =>
      intro s h hc
      have hs : ({ s with clients := [] } : SrvState) = s := by
        cases s
        simp_all
      simp only [List.replicate_succ, feedRun, feedStep_empty records lr fs s h, hs,
        ih s h hc]
      simp

lemma feedRun_append (records : List WitsRecord) (lr : Bool) :
    ∀ (l1 l2 : List (List ℕ × (ℕ → Bool))) (s : SrvState),
      feedRun records lr (l1 ++ l2) s
        = ((feedRun records lr l2 (feedRun records lr l1 s).1).1,
           (feedRun records lr l1 s).2
             ++ (feedRun records lr l2 (feedRun records lr l1 s).1).2) := by
  intro l1
  induction l1 with
  | nil => intro l2 s; simp [feedRun]
  | cons a t ih => intro l2 s; simp [feedRun, ih, List.append_assoc]

lemma foldl_erase_self : ∀ cl : List ℕ, List.foldl (fun cs w => cs.erase w) cl cl = []
  | [] => rfl
  | a :: t => by
      simp only [List.foldl_cons, List.erase_cons_head]
      exact foldl_erase_self t

lemma foldl_append_id {α : Type} : ∀ (l acc : List α),
    List.foldl (fun acc c => acc ++ [c]) acc l = acc ++ l := by
  intro l
  induction l with
  | nil => intro acc; simp
  | cons a t ih => intro acc; simp [ih]

/-- When every write fails, the broadcast step leaves an empty registry. -/
lemma broadcastStep_all_fail (cl : List ℕ) :
    (broadcastStep cl (fun _ => true)).1 = [] := by
  simp only [broadcastStep, if_true]
  rw [foldl_append_id, List.nil_append]
  exact foldl_erase_self cl

/-- In a run without loop replay, the emitted playback indices are
strictly increasing, so no record position is ever broadcast twice. -/
lemma feedRun_indices_mono (records : List WitsRecord) :
    ∀ (inps : List (List ℕ × (ℕ → Bool))) (s : SrvState),
      (∀ p ∈ (feedRun records false inps s).2, s.idx ≤ p.1)
      ∧ ((feedRun records false inps s).2.map Prod.fst).Pairwise (fun a b => a < b) := by
  intro inps
  induction inps with
  | nil => intro s; simp [feedRun]
  | cons a t ih =>
      intro s
      by_cases h : s.idx < records.length
      · by_cases hc : a.1 = []
        · have hstep : feedStep records false a s = ({ s with clients := a.1 }, []) := by
            simp [feedStep, h, hc]
          have iht := ih ({ s with clients := a.1 })
          simp only [feedRun, hstep, List.nil_append]
          exact iht
        · have hstep : feedStep records false a s
              = (⟨s.idx + 1, s.sent + 1, s.passNum, (broadcastStep a.1 a.2).1⟩,
                 [(s.idx, to_wits_frame (records.get ⟨s.idx, h⟩))]) := by
            simp [feedStep, h, hc]
          have iht := ih ⟨s.idx + 1, s.sent + 1, s.passNum, (broadcastStep a.1 a.2).1⟩
          simp only [feedRun, hstep, List.cons_append, List.nil_append, List.map_cons]
          constructor
          · intro p hp
            rcases List.mem_cons.mp hp with hp1 | hp2
            · subst hp1; exact Nat.le_refl _
            · exact Nat.le_trans (Nat.le_succ _) (iht.1 p hp2)
          · refine List.Pairwise.cons ?_ iht.2
            intro b hb
            rcases List.mem_map.mp hb with ⟨p, hp, hpb⟩
            have h2 : s.idx + 1 ≤ p.1 := iht.1 p hp
            omega
      · have hstep : feedStep records false a s = ({ s with clients := a.1 }, []) := by
          simp [feedStep, h]
        have iht := ih ({ s with clients := a.1 })
        simp only [feedRun, hstep, List.nil_append]
        exact iht

/-- C7: while the client registry is empty the feed loop only polls: any
number of idle turns leaves the state (cursor, counter, and all) exactly
as it was, and the first record broadcast once clients appear is the
record that was pending at the cursor when the registry became empty —
pausing skips nothing. -/
theorem feed_idle_no_advance (records : List WitsRecord) (lr : Bool)
    (s : SrvState) (h : s.idx < records.length) (hc : s.clients = [])
    (n : ℕ) (fs : ℕ → Bool) :
    feedRun records lr (List.replicate n ([], fs)) s = (s, [])
    ∧ (∀ (cs : List ℕ) (g : ℕ → Bool), cs ≠ [] →
        (feedRun records lr (List.replicate n ([], fs) ++ [(cs, g)]) s).2
          = [(s.idx, to_wits_frame (records.get ⟨s.idx, h⟩))]) := by
  have hidle := feedRun_idle records lr fs n s h hc
  refine ⟨hidle, fun cs g hcs => ?_⟩
  rw [feedRun_append, hidle]
  simp [feedRun, feedStep, h, hcs]

/-- Witness for C7: after two idle polls from cursor 0 with no clients,
nothing was emitted and the state is unchanged; when a client then
connects, the emitted record is the one at cursor 0. -/
theorem feed_idle_no_advance_witness :
    (⟨0, 0, 1, []⟩ : SrvState).idx < ([{}] : List WitsRecord).length
    ∧ feedRun [{}] false (List.replicate 2 ([], fun _ => false)) ⟨0, 0, 1, []⟩
        = (⟨0, 0, 1, []⟩, [])
    ∧ (feedRun [{}] false (List.replicate 2 ([], fun _ => false) ++ [([7], fun _ => false)])
          ⟨0, 0, 1, []⟩).2
        = [(0, to_wits_frame {})] := by
  have h := feed_idle_no_advance [{}] false ⟨0, 0, 1, []⟩ (by decide) rfl 2 (fun _ => false)
  exact ⟨by decide, h.1, by simpa using h.2 [7] (fun _ => false) (by decide)⟩

/-- C10: when clients are present at the pre-send check, the sent counter
is incremented by exactly one and the cursor advances past the current
record whatever the per-client write outcomes are; with every write
failing, the registry is left empty yet the record still counts as sent;
in a run without loop replay the emitted cursor positions are strictly
increasing, so no record is ever re-sent; and the no-advance retry
behaviour applies only when the registry is already empty before the
send. -/
theorem feed_send_counts_unconditionally (records : List WitsRecord) (s : SrvState) :
    (∀ (lr : Bool) (cs : List ℕ) (g : ℕ → Bool) (h : s.idx < records.length), cs ≠ [] →
        (feedStep records lr (cs, g) s).1.sent = s.sent + 1
        ∧ (feedStep records lr (cs, g) s).1.idx = s.idx + 1
        ∧ (feedStep records lr (cs, g) s).2
            = [(s.idx, to_wits_frame (records.get ⟨s.idx, h⟩))])
    ∧ (∀ (lr : Bool) (cs : List ℕ), s.idx < records.length → cs ≠ [] →
        (feedStep records lr (cs, fun _ => true) s).1.clients = [])
    ∧ (∀ (lr : Bool) (g : ℕ → Bool), s.idx < records.length →
        (feedStep records lr ([], g) s).1.idx = s.idx
        ∧ (feedStep records lr ([], g) s).1.sent = s.sent
        ∧ (feedStep records lr ([], g) s).2 = [])
    ∧ (∀ inps : List (List ℕ × (ℕ → Bool)),
        ((feedRun records false inps s).2.map Prod.fst).Pairwise (fun a b => a < b)) := by
  refine ⟨fun lr cs g h hcs => ?_, fun lr cs h hcs => ?_, fun lr g h => ?_,
    fun inps => (feedRun_indices_mono records inps s).2⟩
  · refine ⟨?_, ?_, ?_⟩ <;> simp [feedStep, h, hcs]
  · simp [feedStep, h, hcs, broadcastStep_all_fail]
  · refine ⟨?_, ?_, ?_⟩ <;> simp [feedStep, h]

/-- Witness for C10: with one client whose write fails, the send counter
still increments, the cursor still advances, and the registry is left
empty. -/
theorem feed_send_counts_unconditionally_witness :
    ([3] : List ℕ) ≠ []
    ∧ (feedStep [{}] false ([3], fun _ => true) ⟨0, 5, 1, []⟩).1.sent = 6
    ∧ (feedStep [{}] false ([3], fun _ => true) ⟨0, 5, 1, []⟩).1.idx = 1
    ∧ (feedStep [{}] false ([3], fun _ => true) ⟨0, 5, 1, []⟩).1.clients = [] := by
  have h := feed_send_counts_unconditionally [{}] ⟨0, 5, 1, []⟩
  refine ⟨by decide, ?_, ?_, ?_⟩
  · exact (h.1 false [3] (fun _ => true) (by decide) (by decide)).1
  · exact (h.1 false [3] (fun _ => true) (by decide) (by decide)).2.1
  · exact h.2.1 false [3] (by decide) (by decide)

/-! ### Helper lemmas for the frame codec -/

/-- The source's join-plus-trailing-CRLF rendering equals the line-list
shape of the spec. -/
lemma to_wits_frame_eq_frameSpec (r : WitsRecord) :
    to_wits_frame r = frameSpec r := by
  simp only [to_wits_frame, frameSpec, frameItems, CRLF, joinSep, List.map_cons,
    List.map_nil, List.cons_append, List.nil_append, List.foldr_cons, List.foldr_nil,
    String.append_assoc]

lemma digitChar_isDigit (d : ℕ) (h : d < 10) : (Nat.digitChar d).isDigit = true := by
  interval_cases d <;> decide

/-- `%.2f` of a finite value is some prefix, a dot, then exactly two
digit characters. -/
lemma fmt2_finite_shape (q : ℚ) :
    ∃ pre d1 d2, fmt2 (PyFloat.finite q) = pre ++ "." ++ String.mk [d1, d2]
      ∧ d1.isDigit = true ∧ d2.isDigit = true := by
  refine ⟨(if roundHalfEven (q * 100) < 0 then "-" else "")
      ++ toString ((roundHalfEven (q * 100)).natAbs / 100),
    Nat.digitChar ((roundHalfEven (q * 100)).natAbs % 100 / 10),
    Nat.digitChar ((roundHalfEven (q * 100)).natAbs % 100 % 10), ?_, ?_, ?_⟩
  · rfl
  · exact digitChar_isDigit _ (by omega)
  · exact digitChar_isDigit _ (by omega)

/-- C1: for a record with 18 finite field values the encoder emits the
`&&` line, then one CRLF-terminated line per channel concatenating a
4-digit code with the value formatted to exactly two decimals, in the
fixed order bit depth, hole depth, ROP, hook load, WOB, rotary speed,
torque, standpipe pressure, pump rate, flow-in, mud-weight-in,
mud-weight-out, ECD, temperature-in, temperature-out, gas, pit volume,
block position, then the `!!` line; encoding is deterministic. -/
theorem wits_frame_wellformed (r : WitsRecord)
    (hfin : ∀ it ∈ frameItems r, it.2.isFinite = true) :
    to_wits_frame r = frameSpec r
    ∧ frameItems r
        = [(WITS_BIT_DEPTH, r.bit_depth), (WITS_HOLE_DEPTH, r.hole_depth),
           (WITS_ROP, r.rop), (WITS_HOOK_LOAD, r.hook_load), (WITS_WOB, r.wob),
           (WITS_RPM, r.rpm), (WITS_TORQUE, r.torque), (WITS_SPP, r.spp),
           (WITS_PUMP_SPM, r.pump_spm), (WITS_FLOW_IN, r.flow_in),
           (WITS_MW_IN, r.mw_in), (WITS_MW_OUT, r.mw_out), (WITS_ECD, r.ecd),
           (WITS_TEMP_IN, r.temp_in), (WITS_TEMP_OUT, r.temp_out),
           (WITS_GAS, r.gas), (WITS_PIT_VOL, r.pit_volume),
           (WITS_BLOCK_POS, r.block_pos)]
    ∧ (frameItems r).length = 18
    ∧ (∀ it ∈ frameItems r, it.1.length = 4 ∧ (it.1.toList.all Char.isDigit) = true)
    ∧ (∀ it ∈ frameItems r, ∃ pre d1 d2,
        fmt2 it.2 = pre ++ "." ++ String.mk [d1, d2]
        ∧ d1.isDigit = true ∧ d2.isDigit = true)
    ∧ to_wits_frame r = to_wits_frame r := by
  refine ⟨to_wits_frame_eq_frameSpec r, rfl, rfl, ?_, ?_, rfl⟩
  · intro it hit
    simp only [frameItems, List.mem_cons, List.not_mem_nil, or_false] at hit
    rcases hit with rfl|rfl|rfl|rfl|rfl|rfl|rfl|rfl|rfl|rfl|rfl|rfl|rfl|rfl|rfl|rfl|rfl|rfl <;>
      exact ⟨rfl, rfl⟩
  · intro it hit
    have hfin2 := hfin it hit
    rcases hv : it.2 with q | _ | _ | _
    · exact fmt2_finite_shape q
    · rw [hv] at hfin2
      simp [PyFloat.isFinite] at hfin2
    · rw [hv] at hfin2
      simp [PyFloat.isFinite] at hfin2
    · rw [hv] at hfin2
      simp [PyFloat.isFinite] at hfin2

/-- Witness for C1 at the all-zero record: its fields are finite and its
frame matches the spec shape. -/
theorem wits_frame_wellformed_witness :
    (∀ it ∈ frameItems {}, it.2.isFinite = true)
    ∧ to_wits_frame {} = frameSpec {} := by
  have h : ∀ it ∈ frameItems ({} : WitsRecord), it.2.isFinite = true := by
    with_unfolding_all decide
  exact ⟨h, (wits_frame_wellformed {} h).1⟩
